import Mathlib

/-!
# A shallow embedding of the `hls` package (hlsdump)

This file models the manifest-driven download engine of the repository:
the media-playlist parser (`parseHeader`, `parseSegments`), the playlist
poller loop (`playlistLoop`), the segment downloader (`downloadSegment`,
`processSegment`, `downloadWorker`), the master-playlist resolver
(`parseMaster`) and the per-rendition `dump` entry point.

Modelling conventions:
* Go strings are Lean `String`s; line-oriented scanning becomes a
  `List String` of lines.
* Go `int`/`int64` become `Int` (no value in the modelled claims comes
  near the 64-bit overflow boundary).
* `time.Duration` is an `Int` counting nanoseconds.
* I/O is made explicit: HTTP responses are values of a `FetchResp` /
  `FetchOutcome` type supplied by the environment, file writes append to
  explicit `List` fields, and writes through `bufio.Writer` are modelled
  as appending "chunks" (one per `WriteString`/`Fprintf`/`writeLine`
  call) to a `List String`.  Local file I/O itself never fails in the
  model.
* The cooperative stop flag is a static field of the configuration (a
  run either observes it or not; flag flips in mid-run are concurrency
  and are out of scope).
-/

namespace HlsDump

/-! ## util.go helpers -/

/-- Go `contains(s []string, b string) bool` from util.go. -/
def contains (s : List String) (b : String) : Bool :=
  s.any (fun a => a == b)

/-- Index of the first occurrence of `c` (Go `strings.IndexByte`),
`none` when absent. -/
def idxOf (cs : List Char) (c : Char) : Option Nat :=
  match cs with
  | [] => none
  | a :: rest => if a = c then some 0 else (idxOf rest c).map (· + 1)

/-- Go `splitPair(s string, c byte)` from util.go: split at the first
occurrence of `c` when its index is positive, otherwise return
`(s, "")`. -/
def splitPair (s : String) (c : Char) : String × String :=
  match idxOf s.toList c with
  | some i =>
      if i > 0 then (⟨s.toList.take i⟩, ⟨s.toList.drop (i + 1)⟩)
      else (s, "")
  | none => (s, "")

/-- Value of a nonempty all-digit character list, `none` otherwise. -/
def digitsVal (cs : List Char) : Option Nat :=
  match cs with
  | [] => none
  | [c] => if c.isDigit then some (c.toNat - '0'.toNat) else none
  | c :: rest =>
      if c.isDigit then
        (digitsVal rest).map (fun n => (c.toNat - '0'.toNat) * 10 ^ rest.length + n)
      else none

/-- Go `strconv.Atoi` / `strconv.ParseInt(s, 10, 64)`: an optional sign
followed by at least one digit.  (The 64-bit range check is not
modelled; no claim exercises it.) -/
def goParseInt (s : String) : Option Int :=
  match s.toList with
  | '+' :: rest => (digitsVal rest).map Int.ofNat
  | '-' :: rest => (digitsVal rest).map (fun n => -(n : Int))
  | cs => (digitsVal cs).map Int.ofNat

/-- Go `min(a, b uint)` from util.go. -/
def goMin (a b : Nat) : Nat :=
  if a < b then a else b

/-- Go `writeLine(w, line)` from util.go, as the chunk it appends to the
writer: nothing for an empty line, otherwise the line plus `'\n'`. -/
def lineChunk (line : String) : List String :=
  if line = "" then [] else [line ++ "\n"]

/-- `writeLine` into a `strings.Builder` accumulating string. -/
def appendLine (acc line : String) : String :=
  if line = "" then acc else acc ++ line ++ "\n"

/-! ## Error taxonomy (util.go `fatalError`, `fatal`) -/

/-- Structural identities of the errors produced by the modelled code. -/
inductive ErrKind where
  | eofErr
  | badMarker
  | atoiError
  | offsetFirstSegment
  | invalidAttrList
  | invalidTag (k : String) (inner : ErrKind)
  | missingTargetDuration
  | sequenceDecreased (old new : Int)
  | mixedPlaylist
  | httpStatus (code : Nat)
  | netError
  | copyError
deriving DecidableEq, Repr

/-- A Go error value with the `fatalError` marker wrapper of util.go:
`isFatal` means the dynamic type is `fatalError`, `client` is its
`client` field. -/
structure GoError where
  kind : ErrKind
  isFatal : Bool
  client : Bool
deriving DecidableEq, Repr

/-- Go `fatal(err)` from util.go (on a non-nil error): wrap as
`fatalError` with a zero `client` field. -/
def fatal (e : GoError) : GoError :=
  { kind := e.kind, isFatal := true, client := false }

/-- A plain (unwrapped) error. -/
def plainErr (k : ErrKind) : GoError :=
  { kind := k, isFatal := false, client := false }

/-- `errOffsetFirstSegment` from playlist.go ("offset must be in first
segment"), a plain error later wrapped by the invalid-tag path. -/
def errOffsetFirstSegment : GoError := plainErr .offsetFirstSegment

/-- `errMissingTargetDuration` from playlist.go, already fatal-wrapped
at its declaration. -/
def errMissingTargetDuration : GoError := fatal (plainErr .missingTargetDuration)

/-- Go `httpResponseStatusError` from util.go: a status error is
fatal-wrapped (with `client: false`) exactly for 4xx statuses other
than 429. -/
def httpResponseStatusError (code : Nat) : GoError :=
  if 400 ≤ code ∧ code < 500 ∧ code ≠ 429 then
    { kind := .httpStatus code, isFatal := true, client := false }
  else
    plainErr (.httpStatus code)

/-! ## Data model (playlist.go, download.go) -/

/-- The fields of the Go `Dumper` configuration relevant to the engine
(URL, HTTP headers and timeouts configure unmodelled network I/O). -/
structure Dumper where
  name : String := ""
  singleFile : Bool := false
  verbose : Bool := false
  groups : List String := []
  titles : List String := []
  stop : Bool := false
deriving Repr

/-- The Go `segment` struct of playlist.go. -/
structure Segment where
  sequence : Int
  duration : Int
  uri : String
  length : Int
  offset : Int
  comments : String
deriving DecidableEq, Repr

/-- The mutable per-rendition fields of the Go `playlist` struct
(`writerSome` models `writer != nil`; durations in nanoseconds). -/
structure PlaylistState where
  version : Int := 0
  sequence : Int := 0
  targetDuration : Int := 0
  lastDuration : Int := 0
  active : Bool := false
  writerSome : Bool := false
deriving DecidableEq, Repr

/-- `segmentTags` map from playlist.go. -/
def segmentTags : List String :=
  ["EXTINF", "EXT-X-BYTERANGE", "EXT-X-DISCONTINUITY", "EXT-X-KEY",
   "EXT-X-MAP", "EXT-X-PROGRAM-DATE-TIME", "EXT-X-DATERANGE", "EXT-X-GAP",
   "EXT-X-BITRATE", "EXT-X-ENDLIST"]

/-- `mediaTags` map from playlist.go (master-resolver part). -/
def mediaTags : List String :=
  ["EXT-X-TARGETDURATION", "EXT-X-MEDIA-SEQUENCE",
   "EXT-X-DISCONTINUITY-SEQUENCE", "EXT-X-PLAYLIST-TYPE",
   "EXT-X-I-FRAMES-ONLY"]

/-! ## parseHeader (playlist.go) -/

/-- Result of the header tag loop of `parseHeader`: the local `version`,
`sequence` and `targetDuration` variables, the (possibly cleared)
`active` flag, the lines echoed to the output playlist so far, the
unconsumed lines (beginning with the line the loop stopped at, if any)
and the error that aborted the loop, if any. -/
structure HeaderScan where
  err : Option GoError := none
  version : Int := 1
  sequence : Int := 0
  targetDuration : Int := 0
  active : Bool := false
  written : List String := []
  rest : List String := []
deriving DecidableEq, Repr

/-- One second as a Go `time.Duration` (nanoseconds). -/
def secondNs : Int := 1000000000

/-- The `loop:` of `parseHeader`: walk header lines, recording
`EXT-X-VERSION` / `EXT-X-TARGETDURATION` / `EXT-X-MEDIA-SEQUENCE` /
`EXT-X-PLAYLIST-TYPE`, echoing lines on the initial pass, stopping at
the first non-`#` line or recognized segment tag. -/
def headerLoop (d : Dumper) (initial : Bool) (sc : HeaderScan) :
    List String → HeaderScan
  | [] => { sc with rest := [] }
  | line :: rest =>
    if line = "" then headerLoop d initial sc rest
    else if line.toList.head? ≠ some '#' then { sc with rest := line :: rest }
    else
      -- strings.HasPrefix(line, tagPrefix) with tagPrefix = "#EXT"
      let isTag := "#EXT".toList.isPrefixOf line.toList
      if isTag then
        let (k, v) := splitPair ⟨line.toList.drop 1⟩ ':'
        if k = "EXT-X-VERSION" then
          match goParseInt v with
          | none => { sc with err := some (fatal (plainErr (.invalidTag k .atoiError))) }
          | some ver =>
            let line := if d.singleFile ∧ ver < 4 then "#EXT-X-VERSION:4" else line
            headerLoop d initial
              { sc with version := ver,
                        written := sc.written ++ (if initial then lineChunk line else []) } rest
        else if k = "EXT-X-TARGETDURATION" then
          match goParseInt v with
          | none => { sc with err := some (fatal (plainErr (.invalidTag k .atoiError))) }
          | some dur =>
            headerLoop d initial
              { sc with targetDuration := dur * secondNs,
                        written := sc.written ++ (if initial then lineChunk line else []) } rest
        else if k = "EXT-X-MEDIA-SEQUENCE" then
          match goParseInt v with
          | none => { sc with err := some (fatal (plainErr (.invalidTag k .atoiError))) }
          | some n =>
            headerLoop d initial
              { sc with sequence := n,
                        written := sc.written ++ (if initial then lineChunk line else []) } rest
        else if k = "EXT-X-PLAYLIST-TYPE" then
          headerLoop d initial
            { sc with active := if !initial ∧ v = "VOD" then false else sc.active,
                      written := sc.written ++ (if initial then lineChunk line else []) } rest
        else if contains segmentTags k then
          -- break loop: the segment tag line is left for parseSegments
          { sc with rest := line :: rest }
        else
          headerLoop d initial
            { sc with written := sc.written ++ (if initial then lineChunk line else []) } rest
      else
        headerLoop d initial
          { sc with written := sc.written ++ (if initial then lineChunk line else []) } rest

/-- Result of `parseHeader`: error (if any), updated playlist state,
lines echoed to the output playlist, and the lines left for
`parseSegments`. -/
structure HeaderResult where
  err : Option GoError := none
  st : PlaylistState
  written : List String := []
  rest : List String := []
deriving DecidableEq, Repr

/-- The media-sequence check ending `parseHeader`: the sequence base
must not decrease; an increase advances it, equality is an idle
reload. -/
def seqCheck (st : PlaylistState) (sc : HeaderScan) : HeaderResult :=
  if sc.sequence > st.sequence then
    { err := none, st := { st with sequence := sc.sequence },
      written := sc.written, rest := sc.rest }
  else if sc.sequence ≠ st.sequence then
    { err := some (fatal (plainErr (.sequenceDecreased st.sequence sc.sequence))),
      st := st, written := sc.written, rest := sc.rest }
  else
    { err := none, st := st, written := sc.written, rest := sc.rest }

/-- The epilogue of `parseHeader` after a clean header loop: apply the
version, target-duration and media-sequence updates, in source order.
(A zero stored target duration together with a non-positive fetched
one is the fatal missing-target-duration error; otherwise the stored
value is updated from a positive fetched value, and changes are only
logged.) -/
def postHeader (st : PlaylistState) (sc : HeaderScan) : HeaderResult :=
  -- version change is logged, never an error
  let st := { st with version := sc.version }
  -- target duration: first value must be positive, later changes logged
  if st.targetDuration = 0 ∧ ¬sc.targetDuration > 0 then
    { err := some errMissingTargetDuration, st := st,
      written := sc.written, rest := sc.rest }
  else
    seqCheck
      (if st.targetDuration = 0 then { st with targetDuration := sc.targetDuration }
       else if st.targetDuration ≠ sc.targetDuration ∧ sc.targetDuration > 0 then
        { st with targetDuration := sc.targetDuration }
       else st) sc

/-- The header loop of one `parseHeader` call after the `#EXTM3U`
marker check: on the initial pass (`writer == nil`) the marker line has
already been echoed. -/
def headerScanOf (d : Dumper) (st : PlaylistState) (rest : List String) :
    HeaderScan :=
  headerLoop d (!st.writerSome)
    { active := st.active,
      written := if !st.writerSome then lineChunk "#EXTM3U" else [] } rest

/-- `(s *stream) parseHeader` from playlist.go over a list of scanned
lines. -/
def parseHeader (d : Dumper) (st : PlaylistState) (lines : List String) :
    HeaderResult :=
  match lines with
  | [] => { err := some (plainErr .eofErr), st := st }
  | line :: rest =>
    if line ≠ "#EXTM3U" then
      { err := some (plainErr .badMarker), st := st }
    else
      let sc := headerScanOf d st rest
      let st := { st with writerSome := true, active := sc.active }
      match sc.err with
      | some e => { err := some e, st := st, written := sc.written, rest := sc.rest }
      | none => postHeader st sc

/-! ## parseSegments (playlist.go) -/

/-- The loop state of `parseSegments`: the local variables `sequence`,
`length`, `offset`, `duration`, `title`, `comments`, together with the
mutated stream fields `s.output.queue.sequence` (`queueSeq`),
`s.playlist.active` and `s.playlist.lastDuration`, and the segments
sent to the queue so far. -/
structure SegLoop where
  seq : Int
  length : Int := -1
  offset : Int := -1
  duration : Int := 0
  title : String := ""
  comments : String := ""
  queueSeq : Int
  active : Bool
  lastDuration : Int
  emitted : List Segment := []
deriving DecidableEq, Repr

/-- Processing of one `#`-line by `parseSegments`: the per-segment tag
switch followed by buffering the line into `comments`. -/
def tagStep (st : SegLoop) (line : String) : SegLoop × Option GoError :=
  if "#EXT".toList.isPrefixOf line.toList then
    let kv := splitPair ⟨line.toList.drop 1⟩ ':'
    if kv.1 = "EXTINF" then
      -- EXTINF:<seconds>.<fraction>,<title>
      let vt := splitPair kv.2 ','
      let vf := splitPair vt.1 '.'
      match goParseInt vf.1 with
      | none => (st, some (fatal (plainErr (.invalidTag kv.1 .atoiError))))
      | some dur =>
        ({ st with duration := dur, title := vt.2,
                   comments := appendLine st.comments line }, none)
    else if kv.1 = "EXT-X-BYTERANGE" then
      let lo := splitPair kv.2 '@'
      match goParseInt lo.1 with
      | none => (st, some (fatal (plainErr (.invalidTag kv.1 .atoiError))))
      | some len =>
        -- (a length of 0 only logs a warning)
        if lo.2 ≠ "" then
          match goParseInt lo.2 with
          | none => (st, some (fatal (plainErr (.invalidTag kv.1 .atoiError))))
          | some off =>
            -- the tag line itself is cleared: not buffered into comments
            ({ st with length := len, offset := off }, none)
        else if st.offset = -1 then
          (st, some (fatal (plainErr (.invalidTag kv.1 .offsetFirstSegment))))
        else
          ({ st with length := len }, none)
    else if kv.1 = "EXT-X-GAP" then
      ({ st with length := 0, comments := appendLine st.comments line }, none)
    else if kv.1 = "EXT-X-ENDLIST" then
      ({ st with active := false, comments := appendLine st.comments line }, none)
    else
      ({ st with comments := appendLine st.comments line }, none)
  else
    ({ st with comments := appendLine st.comments line }, none)

/-- Processing of one URI line by `parseSegments`: emit the segment when
its sequence number is strictly newer than the queue's, advance the
running byte offset, and reset the per-segment locals. -/
def uriStep (d : Dumper) (st : SegLoop) (line : String) : SegLoop :=
  if st.seq > st.queueSeq then
    -- emit: the title filter may force the length to 0 before sending
    let length :=
      if d.titles.length > 0 ∧ ¬contains d.titles st.title then 0 else st.length
    { seq := st.seq + 1, length := -1,
      offset := if length > 0 then st.offset + length else st.offset,
      duration := 0, title := "", comments := "",
      queueSeq := st.seq, active := st.active,
      lastDuration :=
        if st.duration > 0 then st.duration * secondNs else st.lastDuration,
      emitted := st.emitted ++
        [{ sequence := st.seq, duration := st.duration, uri := line,
           length := length, offset := st.offset, comments := st.comments }] }
  else
    -- already enqueued by an earlier fetch: skip, but still advance the
    -- running byte offset from the parsed length
    { seq := st.seq + 1, length := -1,
      offset := if st.length > 0 then st.offset + st.length else st.offset,
      duration := 0, title := "", comments := "",
      queueSeq := st.queueSeq, active := st.active,
      lastDuration := st.lastDuration, emitted := st.emitted }

/-- The line loop of `parseSegments`. -/
def segLoop (d : Dumper) (st : SegLoop) : List String → SegLoop × Option GoError
  | [] => (st, none)
  | line :: rest =>
    if line = "" then segLoop d st rest
    else if line.toList.head? = some '#' then
      match tagStep st line with
      | (st, none) => segLoop d st rest
      | (st, some e) => (st, some e)
    else
      segLoop d (uriStep d st line) rest

/-- Result of `parseSegments`: error (if any), the updated
`s.output.queue.sequence`, playlist `active` / `lastDuration` fields
and all segments sent to the queue (earlier emissions included). -/
structure SegResult where
  err : Option GoError
  queueSeq : Int
  active : Bool
  lastDuration : Int
  emitted : List Segment
deriving DecidableEq, Repr

/-- The initial loop state of one `parseSegments` call: the local
variables start at `length = -1`, `offset = -1` (no byte-range
continuity yet), `duration = 0`, empty title and comments. -/
def segInit (st : PlaylistState) (queueSeq : Int) (emitted : List Segment) :
    SegLoop :=
  { seq := st.sequence, queueSeq := queueSeq, active := st.active,
    lastDuration := st.lastDuration, emitted := emitted }

/-- `(s *stream) parseSegments` from playlist.go over the lines left by
the header pass.  `queueSeq` is `s.output.queue.sequence`; `emitted`
accumulates the segments already sent to the queue by earlier fetches. -/
def parseSegments (d : Dumper) (st : PlaylistState) (queueSeq : Int)
    (emitted : List Segment) (lines : List String) : SegResult :=
  let (fin, err) := segLoop d (segInit st queueSeq emitted) lines
  { err := err, queueSeq := fin.queueSeq, active := fin.active,
    lastDuration := fin.lastDuration, emitted := fin.emitted }

/-! ## fetchPlaylist and playlistLoop (playlist.go) -/

/-- Environment input for one playlist fetch: a transport error
(`client.Do` failing) or a response with a status code and body
lines. -/
inductive FetchResp where
  | netErr
  | resp (status : Nat) (lines : List String)
deriving DecidableEq, Repr

/-- Result of `fetchPlaylist`: error (if any), playlist state, queue
sequence, all enqueued segments (accumulated) and the playlist lines
written during this fetch. -/
structure FetchResult where
  err : Option GoError
  st : PlaylistState
  queueSeq : Int
  emitted : List Segment
  written : List String
deriving DecidableEq, Repr

/-- `(s *stream) fetchPlaylist` from playlist.go: reset `lastDuration`
to half the target duration, then check the HTTP status and run the
header and segment passes. -/
def fetchPlaylist (d : Dumper) (st : PlaylistState) (queueSeq : Int)
    (emitted : List Segment) (r : FetchResp) : FetchResult :=
  let st := { st with lastDuration := st.targetDuration / 2 }
  match r with
  | .netErr =>
    { err := some (plainErr .netError), st := st, queueSeq := queueSeq,
      emitted := emitted, written := [] }
  | .resp status lines =>
    if status ≠ 200 then
      { err := some (httpResponseStatusError status), st := st,
        queueSeq := queueSeq, emitted := emitted, written := [] }
    else
      let hr := parseHeader d st lines
      match hr.err with
      | some e =>
        { err := some e, st := hr.st, queueSeq := queueSeq,
          emitted := emitted, written := hr.written }
      | none =>
        let sr := parseSegments d hr.st queueSeq emitted hr.rest
        { err := sr.err,
          st := { hr.st with active := sr.active, lastDuration := sr.lastDuration },
          queueSeq := sr.queueSeq, emitted := sr.emitted, written := hr.written }

/-- The state threaded through `playlistLoop`: playlist state, queue
sequence, enqueued segments, playlist lines written and the current
value of the `err` variable. -/
structure LoopState where
  st : PlaylistState
  queueSeq : Int
  emitted : List Segment
  written : List String
  err : Option GoError
deriving DecidableEq, Repr

/-- The `for s.playlist.active` loop of `playlistLoop`, driven by a
list of fetch responses supplied by the environment.  The `Bool` of the
result is `true` when the loop returned (inactive rendition, fatal
error, or non-fatal error with no known reload interval) and `false`
when the response list was exhausted while the loop would have kept
polling.  Sleeping is not modelled (no claim depends on poll timing). -/
def playlistLoopGo (d : Dumper) (ls : LoopState) :
    List FetchResp → LoopState × Bool
  | [] => if ls.st.active then (ls, false) else (ls, true)
  | r :: rest =>
    if ¬ls.st.active then (ls, true)
    else
      let f := fetchPlaylist d ls.st ls.queueSeq ls.emitted r
      let ls' : LoopState :=
        { st := f.st, queueSeq := f.queueSeq, emitted := f.emitted,
          written := ls.written ++ f.written, err := f.err }
      match f.err with
      | some e =>
        if e.isFatal ∨ f.st.lastDuration = 0 then (ls', true)
        else playlistLoopGo d ls' rest
      | none => playlistLoopGo d ls' rest

/-- The per-rendition initial state established by `(s *stream) dump`:
an active playlist, zero-valued playlist fields and
`output.queue.sequence = -1`. -/
def initLoopState : LoopState :=
  { st := { active := true }, queueSeq := -1, emitted := [],
    written := [], err := none }

/-- `(s *stream) playlistLoop` from a fresh `dump` state. -/
def playlistLoopRun (d : Dumper) (rounds : List FetchResp) : LoopState × Bool :=
  playlistLoopGo d initLoopState rounds

/-! ## downloadSegment, processSegment, downloadWorker (download.go) -/

/-- Environment input for one segment download attempt: either a
transport error, or a response with a status, the body bytes actually
delivered, whether `io.Copy` fails after delivering them, and whether
the subsequent `Seek` (single-file cleanup) also fails. -/
inductive FetchOutcome where
  | netErr
  | resp (status : Nat) (body : List Nat) (copyFails : Bool) (seekFails : Bool)
deriving DecidableEq, Repr

/-- The mutable downloader-side state: the single-file sink content and
its file position, `s.output.offset`, `s.output.sequence`, the chunks
appended to the output playlist (one per writer call), and the
per-segment files created in non-single-file mode. -/
structure DlState where
  content : List Nat := []
  pos : Nat := 0
  offset : Int := 0
  sequence : Int := 0
  chunks : List String := []
  files : List (String × List Nat) := []
deriving DecidableEq, Repr

/-- Writing `data` into a file whose write position is `pos`
(overwrite-in-place then extend, as an OS file write does). -/
def writeAt (content : List Nat) (pos : Nat) (data : List Nat) : List Nat :=
  content.take pos ++ data ++ content.drop (pos + data.length)

/-- The expected HTTP status chosen by `downloadSegment`: 206 for a
ranged request (known length and offset), 200 otherwise. -/
def expectedStatus (seg : Segment) : Nat :=
  if seg.length ≥ 0 ∧ seg.offset ≥ 0 then 206 else 200

/-- `(s *stream) checkMissingSegments` from download.go: emit a gap
warning comment when consecutive downloaded sequence numbers differ by
more than one, and record the segment's sequence number. -/
def checkMissingSegments (st : DlState) (seg : Segment) : DlState :=
  let st :=
    if st.sequence ≠ 0 then
      let n := st.sequence + 1
      if n ≠ seg.sequence then
        { st with sequence := n,
                  chunks := st.chunks ++
                    ["# WARNING: Missing sequence " ++ toString n ++ "-" ++
                      toString (seg.sequence - 1) ++ "\n"] }
      else { st with sequence := n }
    else st
  { st with sequence := seg.sequence }

/-- `(s *stream) downloadSegment` from download.go for one attempt.
URL resolution, the `Range` request header and HTTP timeouts configure
unmodelled network I/O; `path.Base` is the identity on the simple file
names the model constructs. -/
def downloadSegment (d : Dumper) (st : DlState) (seg : Segment)
    (a : FetchOutcome) : DlState × Option GoError :=
  match a with
  | .netErr => (st, some (plainErr .netError))
  | .resp status body copyFails seekFails =>
    if status ≠ expectedStatus seg then
      (st, some (httpResponseStatusError status))
    else
      let fileName :=
        if d.singleFile then d.name ++ ".ts"
        else d.name ++ "-" ++ toString seg.sequence ++ ".ts"
      let size := body.length
      -- io.Copy(outputFile, resp.Body)
      let st1 :=
        if d.singleFile then
          { st with content := writeAt st.content st.pos body, pos := st.pos + size }
        else
          { st with files := st.files ++ [(fileName, body)] }
      if copyFails then
        if d.singleFile then
          if seekFails then
            -- the failed seek-back is logged and the copy error escalated
            (st1, some (fatal (plainErr .copyError)))
          else
            ({ st1 with pos := st.offset.toNat }, some (plainErr .copyError))
        else
          (st1, some (plainErr .copyError))
      else
        let start := st1.offset
        let st2 := { st1 with offset := st1.offset + size }
        let st3 := checkMissingSegments st2 seg
        let st4 := { st3 with chunks := st3.chunks ++ [seg.comments] }
        let st5 :=
          if d.singleFile then
            { st4 with chunks := st4.chunks ++
                ["#EXT-X-BYTERANGE:" ++ toString size ++ "@" ++ toString start ++ "\n"] }
          else st4
        ({ st5 with chunks := st5.chunks ++ lineChunk fileName }, none)

/-- `(s *stream) processSkippedSegment` from download.go: record the
skip (with its buffered comment lines) in the output playlist; no
network I/O. -/
def processSkippedSegment (st : DlState) (seg : Segment) : DlState :=
  if seg.comments.length > 0 then
    let st := checkMissingSegments st seg
    let body := (seg.comments.dropRight 1).replace "\n" "\n# SKIP: "
    { st with chunks := st.chunks ++ ["# SKIP: "] ++ lineChunk body }
  else st

/-- Result of `processSegment`: final state, the backoff sleeps
performed (in milliseconds, in order), the returned error, and whether
the model ran out of environment-supplied attempt outcomes while the
retry loop would have kept going. -/
structure PSResult where
  st : DlState
  sleeps : List Nat
  err : Option GoError
  ranOut : Bool
deriving DecidableEq, Repr

/-- The retry loop of `processSegment`: retry on non-fatal errors with
backoff `64 << min(try, 4)` milliseconds, stop on success, fatal error
or the stop flag. -/
def psLoop (d : Dumper) (st : DlState) (seg : Segment) (tryN : Nat)
    (sleeps : List Nat) : List FetchOutcome → PSResult
  | [] => { st := st, sleeps := sleeps, err := none, ranOut := true }
  | a :: rest =>
    match downloadSegment d st seg a with
    | (st, none) => { st := st, sleeps := sleeps, err := none, ranOut := false }
    | (st, some e) =>
      let tryN := tryN + 1
      if e.isFatal then
        { st := st, sleeps := sleeps, err := some e, ranOut := false }
      else
        let sleeps := sleeps ++ [64 <<< goMin tryN 4]
        if d.stop then
          { st := st, sleeps := sleeps, err := some e, ranOut := false }
        else
          psLoop d st seg tryN sleeps rest

/-- `(s *stream) processSegment` from download.go: zero-length segments
are recorded as skips without network I/O, others are downloaded with
retries. -/
def processSegment (d : Dumper) (st : DlState) (seg : Segment)
    (attempts : List FetchOutcome) : PSResult :=
  if seg.length = 0 then
    { st := processSkippedSegment st seg, sleeps := [], err := none, ranOut := false }
  else
    psLoop d st seg 0 [] attempts

/-- Result of `downloadWorker`: final state, the returned error, the
queue items left unconsumed when the worker returned early, and the
ran-out-of-environment marker. -/
structure WorkerResult where
  st : DlState
  err : Option GoError
  leftover : List (Segment × List FetchOutcome)
  ranOut : Bool
deriving DecidableEq, Repr

/-- The `for seg := range s.output.queue.c` loop of `downloadWorker`. -/
def workerGo (d : Dumper) (st : DlState) (lastErr : Option GoError) :
    List (Segment × List FetchOutcome) → WorkerResult
  | [] => { st := st, err := lastErr, leftover := [], ranOut := false }
  | (seg, attempts) :: rest =>
    if d.stop then
      { st := st, err := lastErr, leftover := (seg, attempts) :: rest, ranOut := false }
    else
      let r := processSegment d st seg attempts
      if r.ranOut then
        { st := r.st, err := r.err, leftover := rest, ranOut := true }
      else
        match r.err with
        | some e =>
          if e.isFatal ∧ ¬e.client then
            { st := r.st, err := some e, leftover := rest, ranOut := false }
          else workerGo d r.st (some e) rest
        | none => workerGo d r.st none rest

/-- `(s *stream) downloadWorker` from download.go: in single-file mode
the output file is created (truncated) up front, then the queue is
drained. -/
def downloadWorkerRun (d : Dumper) (st : DlState)
    (queue : List (Segment × List FetchOutcome)) : WorkerResult :=
  let st := if d.singleFile then { st with content := [], pos := 0 } else st
  if d.stop then { st := st, err := none, leftover := queue, ranOut := false }
  else workerGo d st none queue

/-! ## parseMaster (playlist.go, master-resolver part) -/

/-- A key character of `attributeListPattern`, i.e. `[A-Z0-9-]`. -/
def isKeyChar (c : Char) : Bool :=
  ('A' ≤ c ∧ c ≤ 'Z') ∨ ('0' ≤ c ∧ c ≤ '9') ∨ c = '-'

/-- One match of `attributeListPattern` =
`([A-Z0-9-]+)=([^",]+|"[^"]*")(?:,|$)` at the current position,
returning the captured key, the quote-stripped value and the remaining
input.  (For this pattern the regex engine's backtracking search is
equivalent to this deterministic matcher: the value alternatives are
distinguished by whether the value starts with a quote, and neither can
be shortened into a match since `[^",]` excludes the comma.) -/
def matchAt (cs : List Char) : Option ((String × String) × List Char) :=
  let key := cs.takeWhile isKeyChar
  if key = [] then none
  else
    match cs.drop key.length with
    | '=' :: r =>
      match r with
      | '"' :: r2 =>
        -- quoted alternative: "[^"]*" then , or end of string
        let inner := r2.takeWhile (· ≠ '"')
        (match r2.drop inner.length with
         | '"' :: r3 =>
           match r3 with
           | [] => some ((⟨key⟩, ⟨inner⟩), [])
           | ',' :: r4 => some ((⟨key⟩, ⟨inner⟩), r4)
           | _ => none
         | _ => none)
      | _ =>
        -- unquoted alternative: [^",]+ then , or end of string
        let v := r.takeWhile (fun c => c ≠ '"' ∧ c ≠ ',')
        if v = [] then none
        else
          match r.drop v.length with
          | [] => some ((⟨key⟩, ⟨v⟩), [])
          | ',' :: r2 => some ((⟨key⟩, ⟨v⟩), r2)
          | _ => none
    | _ => none

/-- `FindAllStringSubmatch`: scan left to right collecting
non-overlapping matches (fuel decreases every step; a successful match
always consumes at least the key, so `cs.length` fuel suffices). -/
def findAllMatches : Nat → List Char → List (String × String)
  | 0, _ => []
  | _, [] => []
  | fuel + 1, cs =>
    match matchAt cs with
    | some (kv, r) => kv :: findAllMatches fuel r
    | none => findAllMatches fuel cs.tail

/-- `parseAttributeList` from playlist.go: `none` models the Go `nil`
map returned when the pattern matches nowhere. -/
def parseAttributeList (v : String) : Option (List (String × String)) :=
  match findAllMatches v.toList.length v.toList with
  | [] => none
  | ms => some ms

/-- Go map indexing `attr[k]` over the ordered match list: the last
binding wins, a missing key yields `""`. -/
def attrGet (attr : List (String × String)) (k : String) : String :=
  match attr.reverse.find? (fun p => p.1 == k) with
  | some p => p.2
  | none => ""

/-- `(d *Dumper) matchRenditions` from playlist.go. -/
def matchRenditions (d : Dumper) (attr : List (String × String)) : Bool :=
  if d.groups.length = 0 then true
  else
    contains d.groups (attrGet attr "VIDEO") ∨
    contains d.groups (attrGet attr "AUDIO") ∨
    contains d.groups (attrGet attr "SUBTITLES") ∨
    contains d.groups (attrGet attr "CLOSED-CAPTIONS")

/-- One rendition job: the Go `stream` as produced by `parseMaster`
(its name and playlist URL).  Relative-reference resolution against the
master URL (`masterURL.Parse(line)`) is not modelled; the job records
the reference line itself. -/
structure MStream where
  name : String
  url : String
deriving DecidableEq, Repr

/-- Result of `parseMaster`: error (if any), the ordered rendition jobs
and whether the fetched document short-circuited as a media playlist. -/
structure MasterResult where
  err : Option GoError := none
  streams : List MStream := []
  shortCircuit : Bool := false
deriving DecidableEq, Repr

/-- The line loop of `parseMaster`: `matched` is the `matchedStream`
flag, `i` the 1-based rendition counter, `streams` the jobs so far. -/
def masterLoop (d : Dumper) (masterURL : String) (matched : Bool) (i : Nat)
    (streams : List MStream) : List String → MasterResult
  | [] => { streams := streams }
  | line :: rest =>
    if line = "" then masterLoop d masterURL matched i streams rest
    else if line.toList.head? = some '#' then
      if ¬"#EXT".toList.isPrefixOf line.toList then
        masterLoop d masterURL matched i streams rest
      else
        let (k, v) := splitPair ⟨line.toList.drop 1⟩ ':'
        if k = "EXT-X-MEDIA" then
          match parseAttributeList v with
          | none =>
            { err := some (plainErr (.invalidTag k .invalidAttrList)),
              streams := streams }
          | some _ => masterLoop d masterURL matched i streams rest
        else if k = "EXT-X-STREAM-INF" then
          match parseAttributeList v with
          | none =>
            { err := some (plainErr (.invalidTag k .invalidAttrList)),
              streams := streams }
          | some attr =>
            masterLoop d masterURL (matched ∨ matchRenditions d attr) i streams rest
        else if contains mediaTags k ∨ contains segmentTags k then
          if streams.length > 0 then
            { err := some (plainErr .mixedPlaylist), streams := streams }
          else
            { streams := [{ name := d.name, url := masterURL }],
              shortCircuit := true }
        else
          masterLoop d masterURL matched i streams rest
    else
      if matched then
        let i := i + 1
        masterLoop d masterURL false i
          (streams ++ [{ name := d.name ++ "-" ++ toString i, url := line }]) rest
      else
        masterLoop d masterURL matched i streams rest

/-- `(d *Dumper) parseMaster` from playlist.go. -/
def parseMaster (d : Dumper) (masterURL : String) (lines : List String) :
    MasterResult :=
  match lines with
  | [] => { err := some (plainErr .eofErr) }
  | line :: rest =>
    if line ≠ "#EXTM3U" then { err := some (plainErr .badMarker) }
    else masterLoop d masterURL false 0 [] rest

/-! ## dump (download.go, orchestrator part) -/

/-- Result of one rendition's `dump`: the reconstructed playlist as the
ordered chunks written to it, the final poller and downloader states,
and `dump`'s returned error. -/
structure DumpResult where
  manifest : List String
  writerSome : Bool
  loop : LoopState
  loopReturned : Bool
  worker : WorkerResult
  err : Option GoError
deriving Repr

/-- Pair each enqueued segment with its attempt environment
(positionally; segments beyond the environment get no attempts). -/
def zipAttempts (segs : List Segment) (env : List (List FetchOutcome)) :
    List (Segment × List FetchOutcome) :=
  match segs, env with
  | [], _ => []
  | s :: ss, [] => (s, []) :: zipAttempts ss []
  | s :: ss, a :: as => (s, a) :: zipAttempts ss as

/-- `(s *stream) dump` from download.go, run sequentially: the poller
consumes its fetch responses, the worker drains the queue, and if the
playlist writer was ever created the output playlist is terminated with
`#EXT-X-ENDLIST`.  `dump` returns the worker's error if non-nil, else
the poller's. -/
def dumpRun (d : Dumper) (rounds : List FetchResp)
    (env : List (List FetchOutcome)) : DumpResult :=
  let (ls, returned) := playlistLoopRun d rounds
  let w := downloadWorkerRun d {} (zipAttempts ls.emitted env)
  let manifest := ls.written ++ w.st.chunks
  let manifest :=
    if ls.st.writerSome then manifest ++ ["#EXT-X-ENDLIST\n"] else manifest
  { manifest := manifest, writerSome := ls.st.writerSome, loop := ls,
    loopReturned := returned, worker := w,
    err := match w.err with
           | some e => some e
           | none => ls.err }

/-! ## Concrete fixtures used by witnesses and counterexamples -/

/-- A concrete example configuration. -/
def exDumper : Dumper := { name := "out" }

/-- A concrete example segment with unknown length/offset. -/
def exSeg : Segment :=
  { sequence := 1, duration := 5, uri := "a.ts", length := -1, offset := -1,
    comments := "" }

/-- A concrete first round that establishes a target duration and one
segment (so that a reload interval is known). -/
def c6round1 : FetchResp :=
  .resp 200 ["#EXTM3U", "#EXT-X-TARGETDURATION:6", "#EXTINF:5,", "s1.ts"]

/-- The poller state after `c6round1` (one successful fetch of an
active playlist with a known target duration and one enqueued
segment). -/
def c6ls : LoopState :=
  { st := { version := 1, sequence := 0, targetDuration := 6 * secondNs,
            lastDuration := 5 * secondNs, active := true, writerSome := true },
    queueSeq := 0,
    emitted := [{ sequence := 0, duration := 5, uri := "s1.ts", length := -1,
                  offset := -1, comments := "#EXTINF:5,\n" }],
    written := ["#EXTM3U\n", "#EXT-X-TARGETDURATION:6\n"],
    err := none }

/-- A concrete single-file configuration. -/
def exDumperSF : Dumper := { name := "out", singleFile := true }

/-- A concrete single-file sink state: 7 bytes written so far. -/
def exSink : DlState :=
  { content := [1, 1, 1, 1, 1, 1, 1], pos := 7, offset := 7, sequence := 3,
    chunks := [], files := [] }

/-- A concrete segment with a known 4-byte range at offset 7. -/
def exSeg4 : Segment :=
  { sequence := 4, duration := 5, uri := "b.ts", length := 4, offset := 7,
    comments := "" }

/-- A playlist state after one successful fetch: base sequence 10,
established target duration. -/
def c2st : PlaylistState :=
  { sequence := 10, targetDuration := 6 * secondNs, active := true,
    writerSome := true }

/-- The `base-N` rendition name for the (1-based) position `j + 1`. -/
def streamName (d : Dumper) (j : Nat) : String :=
  d.name ++ "-" ++ toString (j + 1)

/-- The queue invariant maintained by the parser-side emission logic:
every emitted sequence number is bounded by the queue's last sequence
number, and the emitted sequence numbers are strictly increasing. -/
def EmitInv (queueSeq : Int) (emitted : List Segment) : Prop :=
  (∀ s ∈ emitted, s.sequence ≤ queueSeq)
  ∧ (emitted.map Segment.sequence).Pairwise (· < ·)

/-- Whether an output-playlist chunk is an `EXT-X-BYTERANGE` line. -/
def chunkIsByteRange (s : String) : Bool :=
  "#EXT-X-BYTERANGE:".toList.isPrefixOf s.toList

/-- The byte-range lines expected for segments of sizes `sizes`
appended from byte offset `start` on: each offset is the exclusive
prefix sum of the sizes before it. -/
def expectedByteRanges : List Nat → Int → List String
  | [], _ => []
  | sz :: rest, start =>
    ("#EXT-X-BYTERANGE:" ++ toString sz ++ "@" ++ toString start ++ "\n")
      :: expectedByteRanges rest (start + sz)

/-- A fully successful HTTP attempt for a segment: the expected status
and a complete body transfer. -/
def fullSuccess (seg : Segment) (body : List Nat) : FetchOutcome :=
  .resp (expectedStatus seg) body false false

/-- Two concrete gap-free segments with bodies of 3 and 2 bytes. -/
def c3ps : List (Segment × List Nat) :=
  [({ sequence := 1, duration := 5, uri := "a.ts", length := 3, offset := 0,
      comments := "" }, [1, 2, 3]),
   ({ sequence := 2, duration := 5, uri := "b.ts", length := -1, offset := -1,
      comments := "" }, [4, 5])]

/-! ## Shared lemmas -/

theorem isPrefixOf_app (l r : List Char) : l.isPrefixOf (l ++ r) = true := by
  induction l with
  | nil => simp [List.isPrefixOf]
  | cons a as ih => simp [List.isPrefixOf, ih]

/-! ## C4: omitted EXT-X-BYTERANGE offset -/

/-- C4 counterexample: contrary to the claim, an omitted byte-range
offset on the very first segment of a rendition is **not** accepted: on
the first segment the running offset is `-1` and `parseSegments` fails
with the fatal invalid-tag error wrapping `errOffsetFirstSegment`
("offset must be in first segment"), emitting nothing. -/
theorem byteRangeOmittedOffset_counterexample :
    (parseSegments {} { active := true } (-1) []
        ["#EXT-X-BYTERANGE:100", "a.ts"]).err
      = some (fatal (plainErr (.invalidTag "EXT-X-BYTERANGE"
          errOffsetFirstSegment.kind)))
    ∧ (parseSegments {} { active := true } (-1) []
        ["#EXT-X-BYTERANGE:100", "a.ts"]).emitted = [] := by
  exact ⟨rfl, rfl⟩

/-- C4 (amended): in an `EXT-X-BYTERANGE` tag the offset part may be
omitted only when a running byte offset is available; with no running
offset (`offset = -1`, which is in particular the state at the start of
every `parseSegments` call and hence for the first segment of the
rendition) an omitted offset fails with the fatal error wrapping
`errOffsetFirstSegment`, while with continuity the omission is accepted
and the parsed length recorded. -/
theorem byteRangeOmittedOffset_requiresContinuity
    (st : SegLoop) (line v l : String) (n : Int)
    (hpre : "#EXT".toList.isPrefixOf line.toList = true)
    (hsplit : splitPair ⟨line.toList.drop 1⟩ ':' = ("EXT-X-BYTERANGE", v))
    (hat : splitPair v '@' = (l, ""))
    (hn : goParseInt l = some n) :
    ((tagStep st line).2 ≠ none ↔ st.offset = -1)
    ∧ (st.offset = -1 →
        tagStep st line = (st, some (fatal (plainErr (.invalidTag
          "EXT-X-BYTERANGE" errOffsetFirstSegment.kind)))))
    ∧ (st.offset ≠ -1 → tagStep st line = ({ st with length := n }, none))
    ∧ (∀ pst q em, (segInit pst q em).offset = -1) := by
  have hstep : tagStep st line =
      if st.offset = -1 then
        (st, some (fatal (plainErr (.invalidTag "EXT-X-BYTERANGE"
          .offsetFirstSegment))))
      else ({ st with length := n }, none) := by
    rw [tagStep, hsplit]
    simp only [hpre, if_true]
    simp [hat, hn]
  refine ⟨?_, ?_, ?_, fun _ _ _ => rfl⟩
  · rw [hstep]
    by_cases h : st.offset = -1 <;> simp [h]
  · intro h; rw [hstep, if_pos h]; rfl
  · intro h; rw [hstep, if_neg h]

/-- Witness for `byteRangeOmittedOffset_requiresContinuity` at the
initial state of a parse and the concrete line
`#EXT-X-BYTERANGE:100`. -/
theorem byteRangeOmittedOffset_requiresContinuity_witness :
    "#EXT".toList.isPrefixOf "#EXT-X-BYTERANGE:100".toList = true
    ∧ splitPair ⟨"#EXT-X-BYTERANGE:100".toList.drop 1⟩ ':'
        = ("EXT-X-BYTERANGE", "100")
    ∧ splitPair "100" '@' = ("100", "")
    ∧ goParseInt "100" = some 100
    ∧ ((tagStep (segInit { active := true } (-1) []) "#EXT-X-BYTERANGE:100").2
          ≠ none
        ↔ (segInit { active := true } (-1) []).offset = -1) :=
  ⟨by decide, by decide, by decide, by decide,
    (byteRangeOmittedOffset_requiresContinuity
      (segInit { active := true } (-1) []) "#EXT-X-BYTERANGE:100" "100" "100"
      100 (by decide) (by decide) (by decide) (by decide)).1⟩

/-! ## C5: retry backoff delays -/

/-- One transient (non-fatal) status failure at the head of the
attempt list: the retry loop sleeps `64 << min(try+1, 4)` milliseconds
and retries, leaving the downloader state untouched. -/
theorem psLoop_transient_status (d : Dumper) (st : DlState) (seg : Segment)
    (tryN : Nat) (sleeps : List Nat) (code : Nat) (body : List Nat)
    (cf sf : Bool) (rest : List FetchOutcome)
    (hstop : d.stop = false)
    (hcode : (httpResponseStatusError code).isFatal = false)
    (hne : code ≠ expectedStatus seg) :
    psLoop d st seg tryN sleeps (.resp code body cf sf :: rest)
      = psLoop d st seg (tryN + 1) (sleeps ++ [64 <<< goMin (tryN + 1) 4]) rest := by
  rw [psLoop, downloadSegment]
  rw [if_pos hne]
  simp [hcode, hstop]

/-- A matching-status full-transfer attempt at the head of the attempt
list succeeds immediately with no further sleeps. -/
theorem psLoop_success (d : Dumper) (st : DlState) (seg : Segment)
    (tryN : Nat) (sleeps : List Nat) (body : List Nat) :
    psLoop d st seg tryN sleeps
        (.resp (expectedStatus seg) body false false :: [])
      = { st := (downloadSegment d st seg
            (.resp (expectedStatus seg) body false false)).1,
          sleeps := sleeps, err := none, ranOut := false } := by
  have hok : downloadSegment d st seg (.resp (expectedStatus seg) body false false)
      = ((downloadSegment d st seg (.resp (expectedStatus seg) body false false)).1,
         none) := by
    rw [downloadSegment]
    simp [downloadSegment]
  rw [psLoop, hok]

/-- C5 counterexample: at this concrete input a segment download fails
transiently exactly twice (retryable HTTP 500) and then succeeds, and
the two backoff sleeps are 128 ms and 256 ms — not the 64 ms and 128 ms
the claim states (the retry counter is incremented before the shift, so
the first delay is already `64 << 1`). -/
theorem backoffDelays_counterexample :
    (processSegment { name := "out" } {}
        { sequence := 1, duration := 5, uri := "a.ts", length := -1,
          offset := -1, comments := "" }
        [.resp 500 [] false false, .resp 500 [] false false,
         .resp 200 [1, 2] false false]).sleeps = [128, 256]
    ∧ [128, 256] ≠ [64, 128] := by
  exact ⟨by decide, by decide⟩

/-- C5 (amended): retries of a transiently failing segment download
back off with delay `64 << min(k, 4)` ms before retry `k`, i.e. 64 ms
doubled per retry **starting at 128 ms**, capped at 16 × 64 ms =
1024 ms; a fetch that fails transiently exactly twice and then succeeds
incurs exactly the two delays 128 ms and 256 ms and produces the same
downloader state (output bytes, offsets, manifest chunks) as an
immediate success. -/
theorem backoffDelays_amended (d : Dumper) (st : DlState) (seg : Segment)
    (body : List Nat) (code : Nat)
    (hstop : d.stop = false) (hlen : seg.length ≠ 0)
    (hcode : (httpResponseStatusError code).isFatal = false)
    (hne : code ≠ expectedStatus seg) :
    processSegment d st seg
        [.resp code [] false false, .resp code [] false false,
         .resp (expectedStatus seg) body false false]
      = { st := (processSegment d st seg
            [.resp (expectedStatus seg) body false false]).st,
          sleeps := [128, 256], err := none, ranOut := false }
    ∧ (processSegment d st seg
          [.resp (expectedStatus seg) body false false]).sleeps = []
    ∧ (∀ k : Nat, 64 <<< goMin k 4 = 64 * 2 ^ goMin k 4)
    ∧ (∀ k : Nat, 4 ≤ k → 64 <<< goMin k 4 = 16 * 64) := by
  refine ⟨?_, ?_, ?_, ?_⟩
  · rw [processSegment, if_neg hlen,
      psLoop_transient_status d st seg 0 [] code [] false false _ hstop hcode hne,
      psLoop_transient_status d st seg 1 _ code [] false false _ hstop hcode hne,
      psLoop_success,
      processSegment, if_neg hlen, psLoop_success]
    norm_num [goMin]
    exact ⟨by decide, by decide⟩
  · rw [processSegment, if_neg hlen, psLoop_success]
  · intro k; rw [Nat.shiftLeft_eq]
  · intro k hk
    have : goMin k 4 = 4 := by
      rw [goMin, if_neg (by omega)]
    rw [this]; decide

/-- Witness for `backoffDelays_amended` at a concrete rendition,
segment and HTTP 500 transient failure. -/
theorem backoffDelays_amended_witness :
    exDumper.stop = false
    ∧ exSeg.length ≠ 0
    ∧ (httpResponseStatusError 500).isFatal = false
    ∧ 500 ≠ expectedStatus exSeg
    ∧ processSegment exDumper {} exSeg
        [.resp 500 [] false false, .resp 500 [] false false,
         .resp (expectedStatus exSeg) [1, 2] false false]
      = { st := (processSegment exDumper {} exSeg
            [.resp (expectedStatus exSeg) [1, 2] false false]).st,
          sleeps := [128, 256], err := none, ranOut := false } :=
  ⟨rfl, by decide, by decide, by decide,
    (backoffDelays_amended exDumper {} exSeg [1, 2] 500 rfl (by decide)
      (by decide) (by decide)).1⟩

/-! ## C6: playlist fetch errors and the poller loop -/

/-- C6 counterexample: after one successful round a transient HTTP 500
playlist fetch error does **not** abort the poller loop.  At this
concrete input the fetch error is non-fatal, a positive reload interval
is known (`lastDuration = 3 s`), and the run ends with the loop still
polling (`false` = the environment's response list was exhausted with
the loop ready to fetch again), contradicting the claim that the loop
is aborted and the error surfaced. -/
theorem playlistFetchRetry_counterexample :
    (playlistLoopRun {} [c6round1, .resp 500 []]).2 = false
    ∧ (playlistLoopRun {} [c6round1, .resp 500 []]).1.err
        = some (plainErr (.httpStatus 500))
    ∧ (plainErr (.httpStatus 500)).isFatal = false
    ∧ (playlistLoopRun {} [c6round1, .resp 500 []]).1.st.lastDuration
        = 3 * secondNs := by
  exact ⟨by decide, by decide, by decide, by decide⟩

/-- C6 (amended): a playlist fetch error that is not classified fatal
ends the poller loop if and only if no positive reload interval is
known at that point; otherwise the error is only logged and the loop
**continues**, retrying the playlist fetch on its normal cadence. -/
theorem playlistFetchRetry_amended (d : Dumper) (ls : LoopState)
    (r : FetchResp) (rest : List FetchResp) (e : GoError)
    (hact : ls.st.active = true)
    (he : (fetchPlaylist d ls.st ls.queueSeq ls.emitted r).err = some e)
    (hnf : e.isFatal = false) :
    ((fetchPlaylist d ls.st ls.queueSeq ls.emitted r).st.lastDuration = 0 →
      playlistLoopGo d ls (r :: rest)
        = ({ st := (fetchPlaylist d ls.st ls.queueSeq ls.emitted r).st,
             queueSeq := (fetchPlaylist d ls.st ls.queueSeq ls.emitted r).queueSeq,
             emitted := (fetchPlaylist d ls.st ls.queueSeq ls.emitted r).emitted,
             written := ls.written ++
               (fetchPlaylist d ls.st ls.queueSeq ls.emitted r).written,
             err := some e }, true))
    ∧ ((fetchPlaylist d ls.st ls.queueSeq ls.emitted r).st.lastDuration ≠ 0 →
      playlistLoopGo d ls (r :: rest)
        = playlistLoopGo d
            { st := (fetchPlaylist d ls.st ls.queueSeq ls.emitted r).st,
              queueSeq := (fetchPlaylist d ls.st ls.queueSeq ls.emitted r).queueSeq,
              emitted := (fetchPlaylist d ls.st ls.queueSeq ls.emitted r).emitted,
              written := ls.written ++
                (fetchPlaylist d ls.st ls.queueSeq ls.emitted r).written,
              err := some e } rest) := by
  constructor
  · intro hz
    rw [playlistLoopGo]
    simp only [hact, not_true_eq_false, if_false, he, hz, hnf]
    simp [he]
  · intro hz
    rw [playlistLoopGo]
    simp only [hact, not_true_eq_false, if_false, he, hnf]
    simp [he, hz]

/-- Witness for `playlistFetchRetry_amended`: with a known reload
interval, a transient HTTP 500 playlist fetch leaves the loop
running. -/
theorem playlistFetchRetry_amended_witness :
    (fetchPlaylist {} c6ls.st c6ls.queueSeq c6ls.emitted
        (FetchResp.resp 500 [])).st.lastDuration ≠ 0
    ∧ playlistLoopGo {} c6ls (FetchResp.resp 500 [] :: [])
      = playlistLoopGo {}
          { st := (fetchPlaylist {} c6ls.st c6ls.queueSeq c6ls.emitted
              (FetchResp.resp 500 [])).st,
            queueSeq := (fetchPlaylist {} c6ls.st c6ls.queueSeq c6ls.emitted
              (FetchResp.resp 500 [])).queueSeq,
            emitted := (fetchPlaylist {} c6ls.st c6ls.queueSeq c6ls.emitted
              (FetchResp.resp 500 [])).emitted,
            written := c6ls.written ++ (fetchPlaylist {} c6ls.st c6ls.queueSeq
              c6ls.emitted (FetchResp.resp 500 [])).written,
            err := some (plainErr (.httpStatus 500)) } [] :=
  ⟨by decide,
    (playlistFetchRetry_amended {} c6ls (FetchResp.resp 500 []) []
      (plainErr (.httpStatus 500)) rfl (by decide) (by decide)).2 (by decide)⟩

/-! ## C7: client-class HTTP statuses are fatal and abort the worker -/

/-- C7: an HTTP status in 400–499 other than 429 is classified fatal
(and only those), and such a status on a segment fetch makes
`processSegment` return the fatal error with **no** backoff sleep and
no state change, upon which `downloadWorker` returns immediately,
leaving the rest of the queue unprocessed. -/
theorem clientStatusFatal_abortsWorker :
    (∀ code : Nat, (httpResponseStatusError code).isFatal = true
        ↔ (400 ≤ code ∧ code < 500 ∧ code ≠ 429))
    ∧ ∀ (d : Dumper) (st : DlState) (seg : Segment) (code : Nat)
        (body : List Nat) (cf sf : Bool) (atts : List FetchOutcome)
        (more : List (Segment × List FetchOutcome)),
        d.stop = false → seg.length ≠ 0 →
        400 ≤ code → code < 500 → code ≠ 429 →
        processSegment d st seg (.resp code body cf sf :: atts)
            = { st := st, sleeps := [],
                err := some (httpResponseStatusError code), ranOut := false }
        ∧ (downloadWorkerRun d st
              ((seg, .resp code body cf sf :: atts) :: more)).leftover = more
        ∧ (downloadWorkerRun d st
              ((seg, .resp code body cf sf :: atts) :: more)).err
            = some (httpResponseStatusError code) := by
  constructor
  · intro code
    rw [httpResponseStatusError]
    split
    · simpa
    · simp only [plainErr]
      constructor
      · intro h; simp at h
      · intro h; omega
  · intro d st seg code body cf sf atts more hstop hlen h4 h5 h9
    have hfatal : httpResponseStatusError code
        = { kind := .httpStatus code, isFatal := true, client := false } := by
      rw [httpResponseStatusError, if_pos ⟨h4, h5, h9⟩]
    have hne : code ≠ expectedStatus seg := by
      rw [expectedStatus]; split <;> omega
    have hps : ∀ st0 : DlState,
        processSegment d st0 seg (.resp code body cf sf :: atts)
          = { st := st0, sleeps := [],
              err := some (httpResponseStatusError code), ranOut := false } := by
      intro st0
      rw [processSegment, if_neg hlen, psLoop, downloadSegment, if_pos hne]
      simp [hfatal]
    refine ⟨hps st, ?_, ?_⟩ <;>
    · rw [downloadWorkerRun]
      simp only [hstop, if_false, Bool.false_eq_true]
      rw [workerGo]
      simp only [hstop, if_false, Bool.false_eq_true, hps]
      simp [hfatal]

/-- Witness for `clientStatusFatal_abortsWorker` at a concrete 404 on a
segment fetch with one further segment queued. -/
theorem clientStatusFatal_abortsWorker_witness :
    exDumper.stop = false
    ∧ exSeg.length ≠ 0
    ∧ 400 ≤ 404 ∧ 404 < 500 ∧ 404 ≠ 429
    ∧ processSegment exDumper {} exSeg [.resp 404 [] false false]
        = { st := {}, sleeps := [],
            err := some (httpResponseStatusError 404), ranOut := false }
    ∧ (downloadWorkerRun exDumper {}
          [(exSeg, [.resp 404 [] false false]), (exSeg, [])]).leftover
        = [(exSeg, [])] :=
  ⟨rfl, by decide, by decide, by decide, by decide,
    ((clientStatusFatal_abortsWorker.2 exDumper {} exSeg 404 [] false false []
        [(exSeg, [])] rfl (by decide) (by decide) (by decide) (by decide)).1),
    ((clientStatusFatal_abortsWorker.2 exDumper {} exSeg 404 [] false false []
        [(exSeg, [])] rfl (by decide) (by decide) (by decide) (by decide)).2.1)⟩

/-! ## C8: partial transfer in single-file mode -/

/-- C8: in single-file mode, when the body transfer fails after `body`
bytes were delivered, the stored write cursor `s.output.offset` is left
unchanged and the sink is seeked back to it (so a later segment's
offset math is unaffected); no manifest chunk is written; and if the
seek-back itself fails the original transfer error is escalated to
fatal. -/
theorem partialTransferRewind (d : Dumper) (st : DlState) (seg : Segment)
    (body : List Nat) (sf : Bool)
    (hsf : d.singleFile = true) :
    (downloadSegment d st seg
        (.resp (expectedStatus seg) body true sf)).1.offset = st.offset
    ∧ (downloadSegment d st seg
        (.resp (expectedStatus seg) body true sf)).1.content
        = writeAt st.content st.pos body
    ∧ (downloadSegment d st seg
        (.resp (expectedStatus seg) body true sf)).1.chunks = st.chunks
    ∧ (sf = false →
        (downloadSegment d st seg
            (.resp (expectedStatus seg) body true sf)).1.pos = st.offset.toNat
        ∧ (downloadSegment d st seg
            (.resp (expectedStatus seg) body true sf)).2
          = some (plainErr .copyError))
    ∧ (sf = true →
        (downloadSegment d st seg
            (.resp (expectedStatus seg) body true sf)).2
          = some (fatal (plainErr .copyError))) := by
  rw [downloadSegment]
  simp only [ne_eq, not_true_eq_false, if_false, hsf]
  cases sf <;> simp

/-- Witness for `partialTransferRewind`: a concrete partial transfer of
2 of 4 expected bytes into a single-file sink at offset 7. -/
theorem partialTransferRewind_witness :
    exDumperSF.singleFile = true
    ∧ (false = false →
        (downloadSegment exDumperSF exSink exSeg4
            (.resp (expectedStatus exSeg4) [9, 9] true false)).1.pos
          = (7 : Int).toNat
        ∧ (downloadSegment exDumperSF exSink exSeg4
            (.resp (expectedStatus exSeg4) [9, 9] true false)).2
          = some (plainErr .copyError)) :=
  ⟨rfl, fun _ => by
    have h := (partialTransferRewind exDumperSF exSink exSeg4 [9, 9] false
      rfl).2.2.2.1 rfl
    simpa using h⟩

/-! ## C2: media-sequence monotonicity across fetches -/

/-- C2: across two successive header parses of one rendition (the
stored target duration is already established), with the header scan
succeeding and yielding media-sequence value `sc.sequence`: a greater
value advances the stored base, an equal value leaves it unchanged with
no error, and a smaller value is the fatal `sequenceDecreased` error —
in which case `fetchPlaylist` enqueues no segments from that fetch. -/
theorem mediaSequenceMonotone (d : Dumper) (st : PlaylistState)
    (rest : List String)
    (htd : st.targetDuration ≠ 0)
    (hok : (headerScanOf d st rest).err = none) :
    ((headerScanOf d st rest).sequence > st.sequence →
      (parseHeader d st ("#EXTM3U" :: rest)).err = none
      ∧ (parseHeader d st ("#EXTM3U" :: rest)).st.sequence
          = (headerScanOf d st rest).sequence)
    ∧ ((headerScanOf d st rest).sequence = st.sequence →
      (parseHeader d st ("#EXTM3U" :: rest)).err = none
      ∧ (parseHeader d st ("#EXTM3U" :: rest)).st.sequence = st.sequence)
    ∧ ((headerScanOf d st rest).sequence < st.sequence →
      (parseHeader d st ("#EXTM3U" :: rest)).err
          = some (fatal (plainErr (.sequenceDecreased st.sequence
              (headerScanOf d st rest).sequence)))
      ∧ ∀ q em, (fetchPlaylist d st q em
          (.resp 200 ("#EXTM3U" :: rest))).emitted = em) := by
  have hph : ∀ st1 : PlaylistState, st1.writerSome = st.writerSome →
      st1.active = st.active → st1.targetDuration = st.targetDuration →
      st1.sequence = st.sequence →
      parseHeader d st1 ("#EXTM3U" :: rest)
        = postHeader { st1 with writerSome := true,
                                active := (headerScanOf d st rest).active }
            (headerScanOf d st rest) := by
    intro st1 hw ha ht hs
    have hsc : headerScanOf d st1 rest = headerScanOf d st rest := by
      rw [headerScanOf, headerScanOf, hw, ha]
    rw [parseHeader]
    simp only [ne_eq, not_true_eq_false, if_false, hsc, hok]
  have htri : ∀ (st2 : PlaylistState) (sc : HeaderScan),
      (sc.sequence > st2.sequence →
        (seqCheck st2 sc).err = none
        ∧ (seqCheck st2 sc).st.sequence = sc.sequence)
      ∧ (sc.sequence = st2.sequence →
        (seqCheck st2 sc).err = none
        ∧ (seqCheck st2 sc).st.sequence = st2.sequence)
      ∧ (sc.sequence < st2.sequence →
        (seqCheck st2 sc).err = some (fatal (plainErr
          (.sequenceDecreased st2.sequence sc.sequence)))) := by
    intro st2 sc
    refine ⟨fun h => ?_, fun h => ?_, fun h => ?_⟩ <;> rw [seqCheck]
    · rw [if_pos h]; exact ⟨rfl, rfl⟩
    · rw [if_neg (by omega), if_neg (by omega)]; exact ⟨rfl, rfl⟩
    · rw [if_neg (by omega), if_pos (by omega)]
  have hmain : ∀ st1 : PlaylistState, st1.writerSome = st.writerSome →
      st1.active = st.active → st1.targetDuration = st.targetDuration →
      st1.sequence = st.sequence →
      ((headerScanOf d st rest).sequence > st.sequence →
        (parseHeader d st1 ("#EXTM3U" :: rest)).err = none
        ∧ (parseHeader d st1 ("#EXTM3U" :: rest)).st.sequence
            = (headerScanOf d st rest).sequence)
      ∧ ((headerScanOf d st rest).sequence = st.sequence →
        (parseHeader d st1 ("#EXTM3U" :: rest)).err = none
        ∧ (parseHeader d st1 ("#EXTM3U" :: rest)).st.sequence = st.sequence)
      ∧ ((headerScanOf d st rest).sequence < st.sequence →
        (parseHeader d st1 ("#EXTM3U" :: rest)).err
          = some (fatal (plainErr (.sequenceDecreased st.sequence
              (headerScanOf d st rest).sequence)))) := by
    intro st1 hw ha ht hs
    have hpost : ∀ (st0 : PlaylistState) (sc : HeaderScan),
        st0.targetDuration ≠ 0 →
        ∃ st2 : PlaylistState, st2.sequence = st0.sequence
          ∧ postHeader st0 sc = seqCheck st2 sc := by
      intro st0 sc h0
      simp only [postHeader]
      rw [if_neg (by simp [h0])]
      refine ⟨_, ?_, rfl⟩
      split
      · rfl
      · split <;> rfl
    obtain ⟨st2, h2, heq⟩ :=
      hpost { st1 with writerSome := true,
                       active := (headerScanOf d st rest).active }
        (headerScanOf d st rest) (by simpa [ht] using htd)
    rw [hph st1 hw ha ht hs, heq]
    have h2s : st2.sequence = st.sequence := by
      rw [h2]; simpa using hs
    have := htri st2 (headerScanOf d st rest)
    rw [h2s] at this
    exact this
  refine ⟨(hmain st rfl rfl rfl rfl).1, (hmain st rfl rfl rfl rfl).2.1,
    fun h => ⟨(hmain st rfl rfl rfl rfl).2.2 h, fun q em => ?_⟩⟩
  rw [fetchPlaylist]
  simp only [ne_eq, not_true_eq_false, if_false]
  rw [(hmain { st with lastDuration := st.targetDuration / 2 } rfl rfl rfl
    rfl).2.2 h]

/-- Witness for `mediaSequenceMonotone`: a second fetch whose
`EXT-X-MEDIA-SEQUENCE` value 7 is below the stored base 10 is the
fatal `sequenceDecreased` error and enqueues nothing. -/
theorem mediaSequenceMonotone_witness :
    c2st.targetDuration ≠ 0
    ∧ (headerScanOf {} c2st ["#EXT-X-MEDIA-SEQUENCE:7"]).err = none
    ∧ (headerScanOf {} c2st ["#EXT-X-MEDIA-SEQUENCE:7"]).sequence
        < c2st.sequence
    ∧ (parseHeader {} c2st ("#EXTM3U" :: ["#EXT-X-MEDIA-SEQUENCE:7"])).err
        = some (fatal (plainErr (.sequenceDecreased c2st.sequence
            (headerScanOf {} c2st ["#EXT-X-MEDIA-SEQUENCE:7"]).sequence)))
    ∧ (fetchPlaylist {} c2st 0 []
        (.resp 200 ("#EXTM3U" :: ["#EXT-X-MEDIA-SEQUENCE:7"]))).emitted
        = [] :=
  ⟨by decide, by decide, by decide,
    ((mediaSequenceMonotone {} c2st ["#EXT-X-MEDIA-SEQUENCE:7"] (by decide)
      (by decide)).2.2 (by decide)).1,
    ((mediaSequenceMonotone {} c2st ["#EXT-X-MEDIA-SEQUENCE:7"] (by decide)
      (by decide)).2.2 (by decide)).2 0 []⟩

/-! ## C9: rendition job naming -/

/-- Invariant of `masterLoop`: jobs collected from `EXT-X-STREAM-INF`
matches are named `base-1`, `base-2`, … in manifest order, while the
media-playlist short-circuit produces the single job `base`. -/
theorem masterLoop_names (d : Dumper) (u : String) :
    ∀ (lines : List String) (matched : Bool) (i : Nat)
      (streams : List MStream),
    streams.length = i →
    streams.map MStream.name = (List.range i).map (streamName d) →
    (¬(masterLoop d u matched i streams lines).shortCircuit →
      (masterLoop d u matched i streams lines).streams.map MStream.name
        = (List.range
            (masterLoop d u matched i streams lines).streams.length).map
            (streamName d))
    ∧ ((masterLoop d u matched i streams lines).shortCircuit →
      (masterLoop d u matched i streams lines).streams.map MStream.name
        = [d.name]) := by
  intro lines
  induction lines with
  | nil =>
    intro matched i streams hlen hnm
    rw [masterLoop]
    exact ⟨fun _ => by rw [hnm, hlen], fun h => by simp at h⟩
  | cons line rest ih =>
    intro matched i streams hlen hnm
    rw [masterLoop]
    by_cases h0 : line = ""
    · rw [if_pos h0]; exact ih matched i streams hlen hnm
    rw [if_neg h0]
    by_cases h1 : line.toList.head? = some '#'
    · rw [if_pos h1]
      by_cases h2 : "#EXT".toList.isPrefixOf line.toList = true
      · rw [if_neg (by simpa using h2)]
        rcases hkv : splitPair ⟨line.toList.drop 1⟩ ':' with ⟨k, v⟩
        dsimp only
        by_cases h3 : k = "EXT-X-MEDIA"
        · rw [if_pos h3]
          cases hattr : parseAttributeList v with
          | none =>
            exact ⟨fun _ => by rw [hnm, hlen], fun h => by simp at h⟩
          | some attr => exact ih matched i streams hlen hnm
        · rw [if_neg h3]
          by_cases h4 : k = "EXT-X-STREAM-INF"
          · rw [if_pos h4]
            cases hattr : parseAttributeList v with
            | none =>
              exact ⟨fun _ => by rw [hnm, hlen], fun h => by simp at h⟩
            | some attr => exact ih _ i streams hlen hnm
          · rw [if_neg h4]
            by_cases h5 : contains mediaTags k ∨ contains segmentTags k
            · rw [if_pos h5]
              by_cases h6 : streams.length > 0
              · rw [if_pos h6]
                exact ⟨fun _ => by rw [hnm, hlen], fun h => by simp at h⟩
              · rw [if_neg h6]
                refine ⟨fun h => by simp at h, fun _ => by simp⟩
            · rw [if_neg h5]
              exact ih matched i streams hlen hnm
      · rw [if_pos (by simpa using h2)]
        exact ih matched i streams hlen hnm
    · rw [if_neg h1]
      by_cases h7 : matched = true
      · rw [if_pos h7]
        refine ih false (i + 1)
          (streams ++ [{ name := streamName d i, url := line }])
          (by simp [hlen]) ?_
        rw [List.map_append, hnm, List.range_succ, List.map_append]
        simp [hlen]
      · rw [if_neg h7]
        exact ih matched i streams hlen hnm

/-- C9 counterexample: a master manifest with exactly one
`EXT-X-STREAM-INF` entry and no group filter yields one job named
`base-1`, not the configured base name `base` as the claim states (only
the media-playlist short-circuit reuses the base name). -/
theorem masterNaming_counterexample :
    (parseMaster { name := "base" } "http://x/m.m3u8"
        ["#EXTM3U", "#EXT-X-STREAM-INF:BANDWIDTH=1000", "a.m3u8"]).streams.map
        MStream.name = ["base-1"]
    ∧ "base-1" ≠ "base" := by
  exact ⟨by decide, by decide⟩

/-- C9 (amended): every rendition job selected from a master manifest
is named `base-N` with `N` counting from 1 in manifest order — also
when only a single rendition is selected; the configured base name is
reused unchanged only for the implicit single job created when the
fetched document turns out to be a media playlist.  (In particular two
`EXT-X-STREAM-INF` entries with no group filter yield exactly the jobs
`base-1` and `base-2`.) -/
theorem masterNaming (d : Dumper) (u : String) (lines : List String) :
    (¬(parseMaster d u lines).shortCircuit →
      (parseMaster d u lines).streams.map MStream.name
        = (List.range (parseMaster d u lines).streams.length).map
            (streamName d))
    ∧ ((parseMaster d u lines).shortCircuit →
      (parseMaster d u lines).streams.map MStream.name = [d.name]) := by
  match lines with
  | [] =>
    rw [parseMaster]
    exact ⟨fun _ => by simp, fun h => by simp at h⟩
  | line :: rest =>
    rw [parseMaster]
    by_cases h : line = "#EXTM3U"
    · rw [if_neg (by simp [h])]
      exact masterLoop_names d u rest false 0 [] rfl (by simp)
    · rw [if_pos h]
      exact ⟨fun _ => by simp, fun hx => by simp at hx⟩

/-- Witness for `masterNaming`: the two-`EXT-X-STREAM-INF` master of
the claim gives jobs `base-1` and `base-2`. -/
theorem masterNaming_witness :
    ¬(parseMaster { name := "base" } "http://x/m.m3u8"
        ["#EXTM3U", "#EXT-X-STREAM-INF:BANDWIDTH=1000", "a.m3u8",
         "#EXT-X-STREAM-INF:BANDWIDTH=2000", "b.m3u8"]).shortCircuit
    ∧ (parseMaster { name := "base" } "http://x/m.m3u8"
        ["#EXTM3U", "#EXT-X-STREAM-INF:BANDWIDTH=1000", "a.m3u8",
         "#EXT-X-STREAM-INF:BANDWIDTH=2000", "b.m3u8"]).streams.map
        MStream.name = ["base-1", "base-2"] := by
  refine ⟨by decide, ?_⟩
  rw [(masterNaming { name := "base" } "http://x/m.m3u8"
    ["#EXTM3U", "#EXT-X-STREAM-INF:BANDWIDTH=1000", "a.m3u8",
     "#EXT-X-STREAM-INF:BANDWIDTH=2000", "b.m3u8"]).1 (by decide)]
  decide

/-! ## C10: the output playlist always ends with EXT-X-ENDLIST -/

/-- C10: for every run of one rendition's `dump` (any fetch rounds, any
download outcomes — clean end, stop, or error), if the playlist writer
was ever created (the preamble was written) then the reconstructed
playlist's final line is `#EXT-X-ENDLIST`. -/
theorem endlistTerminatesManifest (d : Dumper) (rounds : List FetchResp)
    (env : List (List FetchOutcome)) :
    (dumpRun d rounds env).writerSome = true →
    (dumpRun d rounds env).manifest.getLast? = some "#EXT-X-ENDLIST\n" := by
  rcases hls : playlistLoopRun d rounds with ⟨ls, ret⟩
  rw [dumpRun, hls]
  dsimp only
  by_cases hw : ls.st.writerSome = true
  · rw [if_pos hw]
    intro _
    simp
  · rw [if_neg hw]
    intro h
    exact absurd h hw

/-- Witness for `endlistTerminatesManifest`: a concrete one-round VOD
run whose manifest preamble is written. -/
theorem endlistTerminatesManifest_witness :
    (dumpRun { name := "out" }
        [.resp 200 ["#EXTM3U", "#EXT-X-TARGETDURATION:5", "#EXT-X-ENDLIST"]]
        []).writerSome = true
    ∧ (dumpRun { name := "out" }
        [.resp 200 ["#EXTM3U", "#EXT-X-TARGETDURATION:5", "#EXT-X-ENDLIST"]]
        []).manifest.getLast? = some "#EXT-X-ENDLIST\n" :=
  ⟨by decide,
    endlistTerminatesManifest { name := "out" }
      [.resp 200 ["#EXTM3U", "#EXT-X-TARGETDURATION:5", "#EXT-X-ENDLIST"]]
      [] (by decide)⟩

/-! ## C1: strictly increasing emitted sequence numbers -/

/-- A tag line never changes the emitted segments or the queue's last
sequence number. -/
theorem tagStep_queue (st : SegLoop) (line : String) :
    (tagStep st line).1.emitted = st.emitted
    ∧ (tagStep st line).1.queueSeq = st.queueSeq := by
  rw [tagStep]
  split
  · dsimp only
    repeat' split
    all_goals exact ⟨rfl, rfl⟩
  · exact ⟨rfl, rfl⟩

/-- A URI line preserves the emission invariant: a segment is emitted
only when its sequence number strictly exceeds the queue's. -/
theorem uriStep_inv (d : Dumper) (st : SegLoop) (line : String)
    (h : EmitInv st.queueSeq st.emitted) :
    EmitInv (uriStep d st line).queueSeq (uriStep d st line).emitted := by
  obtain ⟨h1, h2⟩ := h
  rw [uriStep]
  split
  case isTrue hgt =>
    dsimp only
    constructor
    · intro s hs
      rcases List.mem_append.1 hs with hs | hs
      · exact le_of_lt (lt_of_le_of_lt (h1 s hs) hgt)
      · simp only [List.mem_singleton] at hs
        rw [hs]
    · rw [List.map_append, List.pairwise_append]
      refine ⟨h2, by simp, ?_⟩
      intro a ha b hb
      simp only [List.map_cons, List.map_nil, List.mem_singleton] at hb
      obtain ⟨s, hs, rfl⟩ := List.mem_map.1 ha
      rw [hb]
      exact lt_of_le_of_lt (h1 s hs) hgt
  case isFalse hle =>
    exact ⟨h1, h2⟩

/-- The segment loop preserves the emission invariant. -/
theorem segLoop_inv (d : Dumper) : ∀ (lines : List String) (st : SegLoop),
    EmitInv st.queueSeq st.emitted →
    EmitInv (segLoop d st lines).1.queueSeq (segLoop d st lines).1.emitted := by
  intro lines
  induction lines with
  | nil => intro st h; rw [segLoop]; exact h
  | cons line rest ih =>
    intro st h
    rw [segLoop]
    split
    · exact ih st h
    split
    · rcases ht : tagStep st line with ⟨st1, e⟩
      have hq := tagStep_queue st line
      rw [ht] at hq
      have h1 : EmitInv st1.queueSeq st1.emitted := by
        rw [hq.1, hq.2]; exact h
      cases e with
      | none => exact ih st1 h1
      | some err => exact h1
    · exact ih _ (uriStep_inv d st line h)

/-- `parseSegments` preserves the emission invariant. -/
theorem parseSegments_inv (d : Dumper) (st : PlaylistState) (q : Int)
    (em : List Segment) (lines : List String) (h : EmitInv q em) :
    EmitInv (parseSegments d st q em lines).queueSeq
      (parseSegments d st q em lines).emitted := by
  rw [parseSegments]
  exact segLoop_inv d lines (segInit st q em) h

/-- One playlist fetch preserves the emission invariant. -/
theorem fetchPlaylist_inv (d : Dumper) (st : PlaylistState) (q : Int)
    (em : List Segment) (r : FetchResp) (h : EmitInv q em) :
    EmitInv (fetchPlaylist d st q em r).queueSeq
      (fetchPlaylist d st q em r).emitted := by
  rw [fetchPlaylist.eq_def]
  cases r with
  | netErr => exact h
  | resp status lines =>
    dsimp only
    split
    · exact h
    · split
      · exact h
      · exact parseSegments_inv d _ q em _ h

/-- The poller loop preserves the emission invariant. -/
theorem playlistLoopGo_inv (d : Dumper) : ∀ (rounds : List FetchResp)
    (ls : LoopState), EmitInv ls.queueSeq ls.emitted →
    EmitInv (playlistLoopGo d ls rounds).1.queueSeq
      (playlistLoopGo d ls rounds).1.emitted := by
  intro rounds
  induction rounds with
  | nil =>
    intro ls h
    rw [playlistLoopGo]
    split <;> exact h
  | cons r rest ih =>
    intro ls h
    rw [playlistLoopGo]
    split
    · exact h
    · dsimp only
      split
      · split
        · exact fetchPlaylist_inv d ls.st ls.queueSeq ls.emitted r h
        · exact ih _ (fetchPlaylist_inv d ls.st ls.queueSeq ls.emitted r h)
      · exact ih _ (fetchPlaylist_inv d ls.st ls.queueSeq ls.emitted r h)

/-- C1: over any run of the poller loop of one rendition (any sequence
of manifest reloads), the segments enqueued for download have strictly
increasing sequence numbers — no duplicates, and a re-parse of an
overlapping window emits nothing for already-enqueued sequence
numbers (`parseSegments` emits only above the queue's last sequence
number, by `uriStep_inv`). -/
theorem emittedSequencesStrictMono (d : Dumper) (rounds : List FetchResp) :
    ((playlistLoopRun d rounds).1.emitted.map Segment.sequence).Pairwise
      (· < ·) :=
  (playlistLoopGo_inv d rounds initLoopState
    ⟨fun s hs => absurd hs (List.not_mem_nil s), List.Pairwise.nil⟩).2

/-! ## C3: single-file byte accounting -/

theorem toList_app (a b : String) : (a ++ b).toList = a.toList ++ b.toList :=
  rfl

theorem writeAt_snoc (c : List Nat) (b : List Nat) :
    writeAt c c.length b = c ++ b := by
  rw [writeAt, List.take_length, List.drop_eq_nil_of_le (by omega),
    List.append_nil]

theorem chunkIsByteRange_tag (a b : String) :
    chunkIsByteRange ("#EXT-X-BYTERANGE:" ++ a ++ "@" ++ b ++ "\n") = true := by
  rw [chunkIsByteRange]
  have h : ("#EXT-X-BYTERANGE:" ++ a ++ "@" ++ b ++ "\n").toList
      = "#EXT-X-BYTERANGE:".toList
        ++ (a.toList ++ ("@".toList ++ (b.toList ++ "\n".toList))) := by
    simp [toList_app]
  rw [h, isPrefixOf_app]

theorem tsName_ne_empty (a : String) : a ++ ".ts" ≠ "" := by
  intro h
  have := congrArg String.toList h
  rw [toList_app] at this
  simp at this

/-- In single-file mode, a full-body successful `downloadSegment` with
no sequence gap appends the body at the cursor, advances the write
cursor and `s.output.offset` by the transferred size, records the
segment's start offset (the pre-transfer cursor) in the
`EXT-X-BYTERANGE` manifest line, and appends the comments and file
reference chunks. -/
theorem downloadSegment_success (d : Dumper) (st : DlState) (seg : Segment)
    (body : List Nat)
    (hsf : d.singleFile = true)
    (hpos : st.pos = st.content.length)
    (hseq : st.sequence = 0 ∨ seg.sequence = st.sequence + 1) :
    downloadSegment d st seg (fullSuccess seg body)
      = ({ content := st.content ++ body,
           pos := st.content.length + body.length,
           offset := st.offset + body.length,
           sequence := seg.sequence,
           chunks := st.chunks ++ [seg.comments,
             "#EXT-X-BYTERANGE:" ++ toString body.length ++ "@"
               ++ toString st.offset ++ "\n",
             (d.name ++ ".ts") ++ "\n"],
           files := st.files }, none) := by
  rw [fullSuccess, downloadSegment]
  rw [if_neg (by simp)]
  simp only [hsf, if_true, Bool.false_eq_true, if_false]
  rw [hpos, writeAt_snoc]
  have hcms : checkMissingSegments
      { st with content := st.content ++ body,
                pos := st.content.length + body.length,
                offset := st.offset + (body.length : Int) } seg
      = { st with content := st.content ++ body,
                  pos := st.content.length + body.length,
                  offset := st.offset + (body.length : Int),
                  sequence := seg.sequence } := by
    rw [checkMissingSegments]
    rcases hseq with h0 | h1
    · rw [if_neg (by simp [h0])]
    · by_cases h0 : st.sequence = 0
      · rw [if_neg (by simp [h0])]
      · rw [if_pos (by simpa using h0), if_neg (by simp [h1])]
  rw [show (lineChunk (d.name ++ ".ts")) = [(d.name ++ ".ts") ++ "\n"] from
    by rw [lineChunk, if_neg (tsName_ne_empty d.name)]] at *
  simp only [hcms, lineChunk, if_neg (tsName_ne_empty d.name)]
  simp [List.append_assoc]

/-- The worker invariant behind C3: over any queue of nonzero-length,
gap-free segments each downloaded successfully in one attempt, the
single-file content grows by exactly the body sizes, the write cursor
and offset track the content length, and the byte-range manifest lines
list the exclusive prefix sums. -/
theorem workerAllSuccess (d : Dumper)
    (hsf : d.singleFile = true) (hstop : d.stop = false)
    (hnm : chunkIsByteRange (d.name ++ ".ts" ++ "\n") = false) :
    ∀ (ps : List (Segment × List Nat)) (st : DlState)
      (lastErr : Option GoError),
    (∀ p ∈ ps, p.1.length ≠ 0) →
    (∀ p ∈ ps, chunkIsByteRange p.1.comments = false) →
    List.Chain' (fun a b => b.1.sequence = a.1.sequence + 1) ps →
    (match ps with
     | [] => True
     | p :: _ => st.sequence = 0 ∨ p.1.sequence = st.sequence + 1) →
    st.pos = st.content.length →
    st.offset = (st.content.length : Int) →
    (workerGo d st lastErr
        (ps.map fun p => (p.1, [fullSuccess p.1 p.2]))).st.content.length
      = st.content.length + (ps.map fun p => p.2.length).sum
    ∧ (workerGo d st lastErr
        (ps.map fun p => (p.1, [fullSuccess p.1 p.2]))).st.offset
      = ((st.content.length + (ps.map fun p => p.2.length).sum : Nat) : Int)
    ∧ (workerGo d st lastErr
        (ps.map fun p => (p.1, [fullSuccess p.1 p.2]))).st.chunks.filter
        chunkIsByteRange
      = st.chunks.filter chunkIsByteRange
        ++ expectedByteRanges (ps.map fun p => p.2.length)
            (st.content.length : Int) := by
  intro ps
  induction ps with
  | nil =>
    intro st lastErr _ _ _ _ hpos hoff
    rw [List.map_nil, workerGo]
    refine ⟨by simp, by simp [hoff], by simp [expectedByteRanges]⟩
  | cons p rest ih =>
    intro st lastErr hlen hcom hchain hhead hpos hoff
    obtain ⟨seg, body⟩ := p
    rw [List.map_cons, workerGo]
    rw [if_neg (by simp [hstop])]
    have hdl := downloadSegment_success d st seg body hsf hpos (by simpa using hhead)
    have hps : processSegment d st seg [fullSuccess seg body]
        = { st := (downloadSegment d st seg (fullSuccess seg body)).1,
            sleeps := [], err := none, ranOut := false } := by
      rw [processSegment, if_neg (hlen (seg, body) (by simp))]
      exact psLoop_success d st seg 0 [] body
    rw [hps, hdl]
    try dsimp only
    rw [if_neg (by simp : ¬(false = true))]
    try dsimp only
    have hchain' : List.Chain' (fun a b => b.1.sequence = a.1.sequence + 1) rest :=
      hchain.tail
    have hhead' : match rest with
        | [] => True
        | q :: _ => seg.sequence = 0 ∨ q.1.sequence = seg.sequence + 1 := by
      cases rest with
      | nil => trivial
      | cons q qs =>
        exact Or.inr (List.chain'_cons.1 hchain).1
    have := ih { content := st.content ++ body,
                 pos := st.content.length + body.length,
                 offset := st.offset + body.length,
                 sequence := seg.sequence,
                 chunks := st.chunks ++ [seg.comments,
                   "#EXT-X-BYTERANGE:" ++ toString body.length ++ "@"
                     ++ toString st.offset ++ "\n",
                   (d.name ++ ".ts") ++ "\n"],
                 files := st.files } none
      (fun q hq => hlen q (by simp [hq]))
      (fun q hq => hcom q (by simp [hq]))
      hchain' (by simpa using hhead')
      (by simp)
      (by simp [hoff])
    refine ⟨?_, ?_, ?_⟩
    · rw [this.1]; simp; omega
    · rw [this.2.1]; simp
      ring
    · rw [this.2.2]
      dsimp only
      rw [List.filter_append]
      have hfs : List.filter chunkIsByteRange [seg.comments,
          "#EXT-X-BYTERANGE:" ++ toString body.length ++ "@"
            ++ toString st.offset ++ "\n",
          (d.name ++ ".ts") ++ "\n"]
          = ["#EXT-X-BYTERANGE:" ++ toString body.length ++ "@"
              ++ toString st.offset ++ "\n"] := by
        have h1 := hcom (seg, body) (by simp)
        have h2 := chunkIsByteRange_tag (toString body.length) (toString st.offset)
        simp only [List.filter_cons, List.filter_nil]
        rw [h1, h2]
        simpa using hnm
      rw [hfs]
      rw [List.map_cons, expectedByteRanges]
      simp only [List.length_append]
      rw [hoff]
      push_cast
      simp [List.append_assoc]

/-- C3: in single-file mode, after `N` gap-free segments with bodies
`B_1 … B_N` are each downloaded successfully, the single output file
holds exactly `Σ|B_i|` bytes, the stored offset equals that total, and
the output manifest's `EXT-X-BYTERANGE` lines are `|B_i|@o_i` with the
offsets `o_i` the exclusive prefix sums of the body sizes (each
segment's start offset is the write cursor before its transfer, which
advances by exactly the transferred size). -/
theorem singleFileByteAccounting (d : Dumper)
    (ps : List (Segment × List Nat))
    (hsf : d.singleFile = true) (hstop : d.stop = false)
    (hnm : chunkIsByteRange (d.name ++ ".ts" ++ "\n") = false)
    (hlen : ∀ p ∈ ps, p.1.length ≠ 0)
    (hcom : ∀ p ∈ ps, chunkIsByteRange p.1.comments = false)
    (hchain : List.Chain' (fun a b => b.1.sequence = a.1.sequence + 1) ps) :
    (downloadWorkerRun d {}
        (ps.map fun p => (p.1, [fullSuccess p.1 p.2]))).st.content.length
      = (ps.map fun p => p.2.length).sum
    ∧ (downloadWorkerRun d {}
        (ps.map fun p => (p.1, [fullSuccess p.1 p.2]))).st.offset
      = (((ps.map fun p => p.2.length).sum : Nat) : Int)
    ∧ (downloadWorkerRun d {}
        (ps.map fun p => (p.1, [fullSuccess p.1 p.2]))).st.chunks.filter
        chunkIsByteRange
      = expectedByteRanges (ps.map fun p => p.2.length) 0 := by
  rw [downloadWorkerRun]
  rw [if_pos hsf, if_neg (by simp [hstop])]
  have := workerAllSuccess d hsf hstop hnm ps {} none hlen hcom hchain
    (by cases ps <;> simp) rfl rfl
  simpa using this

/-- Witness for `singleFileByteAccounting`: two segments of 3 and 2
bytes produce a 5-byte file and the byte-range lines `3@0`, `2@3`. -/
theorem singleFileByteAccounting_witness :
    exDumperSF.singleFile = true
    ∧ exDumperSF.stop = false
    ∧ chunkIsByteRange (exDumperSF.name ++ ".ts" ++ "\n") = false
    ∧ (∀ p ∈ c3ps, p.1.length ≠ 0)
    ∧ List.Chain' (fun a b => b.1.sequence = a.1.sequence + 1) c3ps
    ∧ (downloadWorkerRun exDumperSF {}
        (c3ps.map fun p => (p.1, [fullSuccess p.1 p.2]))).st.content.length
      = (c3ps.map fun p => p.2.length).sum
    ∧ (downloadWorkerRun exDumperSF {}
        (c3ps.map fun p => (p.1, [fullSuccess p.1 p.2]))).st.chunks.filter
        chunkIsByteRange
      = expectedByteRanges (c3ps.map fun p => p.2.length) 0 :=
  ⟨rfl, rfl, by decide, by decide, by simp [c3ps, List.chain'_cons],
    (singleFileByteAccounting exDumperSF c3ps rfl rfl (by decide) (by decide)
      (by decide) (by simp [c3ps, List.chain'_cons])).1,
    (singleFileByteAccounting exDumperSF c3ps rfl rfl (by decide) (by decide)
      (by decide) (by simp [c3ps, List.chain'_cons])).2.2⟩

end HlsDump
